import Mathlib

/-!
# PixelPouch — formal model of the spec-relevant core

Shallow embedding of the parts of the PixelPouch repository that the
verified properties talk about:

* `SendPythonServer` (src/python/pixelpouch/libs/core/debug/server.py):
  the request/response code-execution bridge — `_handle_connection`,
  `_execute` and the accept loop `_run`.
* `SvgZipListModel` / `SvgIconWorker`
  (src/python/pixelpouch/houdini/tools/icon_browser/models/svg_browser_model.py,
  src/python/pixelpouch/libs/worker/svg_icon_worker.py): the lazy icon
  cache with its loading set and background render tasks.
* `group_svgs_by_folder` (src/python/pixelpouch/houdini/ops/svg_grouping.py)
  and `regroup_svgs_for_ui` (src/python/pixelpouch/houdini/ops/svg_category.py).
* `WheelTabBar.wheelEvent` (src/python/pixelpouch/libs/core/qt/widgets/wheel_tab_bar.py).

Executed Python source is modelled by a small statement language (plain
assignment, printing, raising) whose semantics follows CPython's
`exec(code, globals(), local_ns)`: name binding by plain assignment goes
to the locals mapping, name lookup consults locals first and then
globals, an unbound name raises `NameError`.
-/

namespace PixelPouch

/-! ## Python values and namespaces -/

/-- A Python value, as far as the debug server's protocol can observe it
(JSON-serialisable scalars). -/
inductive PyVal where
  | none
  | int (n : Int)
  | str (s : String)
  deriving DecidableEq, Repr

/-- A Python dict used as a namespace: association list, first match wins
on lookup (a dict has unique keys; `dictSet` preserves that). -/
abbrev Namespace := List (String × PyVal)

/-- Lookup `d[k]` returning `Option`, i.e. Python's `d.get(k)` with its
`None` default left to the caller. -/
def nsGet (d : Namespace) (k : String) : Option PyVal :=
  match d with
  | [] => Option.none
  | (k', v) :: rest => if k' = k then some v else nsGet rest k

/-- Assignment `d[k] = v` with Python-dict semantics: an existing key keeps its
position, a new key is appended. -/
def nsSet (d : Namespace) (k : String) (v : PyVal) : Namespace :=
  match d with
  | [] => [(k, v)]
  | (k', v') :: rest =>
      if k' = k then (k, v) :: rest else (k', v') :: nsSet rest k v

/-- Python `str()` of a value, for `print`. -/
def pyStr : PyVal → String
  | .none => "None"
  | .int n => toString n
  | .str s => s

/-! ## The executed code fragment

A fragment of Python statements sufficient for the spec's examples:
plain assignment, `print(...)`, and `raise Exception(msg)`. -/

/-- An expression: a literal or a name. -/
inductive Expr where
  | lit (v : PyVal)
  | var (x : String)
  deriving DecidableEq, Repr

/-- A statement of the executed source. -/
inductive Stmt where
  | assign (x : String) (e : Expr)
  | printExpr (e : Expr)
  | raiseExc (msg : String)
  deriving DecidableEq, Repr

/-- A piece of Python source: its parsed statement list. -/
abbrev Source := List Stmt

/-- State threaded through `exec`: the locals dict and the stdout
captured so far by `redirect_stdout`. -/
structure ExecState where
  locals : Namespace
  stdout : String
  deriving DecidableEq, Repr

/-- Name lookup during `exec(code, globals(), local_ns)`: locals first,
then globals. -/
def lookupName (g l : Namespace) (x : String) : Option PyVal :=
  match nsGet l x with
  | some v => some v
  | Option.none => nsGet g x

/-- Expression evaluation; an unbound name raises `NameError`. -/
def evalExpr (g l : Namespace) : Expr → Except String PyVal
  | .lit v => .ok v
  | .var x =>
      match lookupName g l x with
      | some v => .ok v
      | Option.none => .error ("NameError: name '" ++ x ++ "' is not defined")

/-- One statement of `exec`. On an exception the state captured so far
(stdout, locals) is carried along, as the surrounding `StringIO` buffers
are. Plain assignment binds in the LOCALS dict only — `exec` with a
separate `local_ns` never writes through to globals. -/
def runStmt (g : Namespace) (st : ExecState) :
    Stmt → Except (String × ExecState) ExecState
  | .assign x e =>
      match evalExpr g st.locals e with
      | .ok v => .ok { st with locals := nsSet st.locals x v }
      | .error msg => .error (msg, st)
  | .printExpr e =>
      match evalExpr g st.locals e with
      | .ok v => .ok { st with stdout := st.stdout ++ pyStr v ++ "\n" }
      | .error msg => .error (msg, st)
  | .raiseExc msg => .error ("Exception: " ++ msg, st)

/-- Running a statement list, stopping at the first exception. -/
def runSource (g : Namespace) (st : ExecState) :
    Source → Except (String × ExecState) ExecState
  | [] => .ok st
  | s :: rest =>
      match runStmt g st s with
      | .ok st' => runSource g st' rest
      | .error e => .error e

/-! ## `SendPythonServer._execute` -/

/-- The wire response `{"status", "stdout", "stderr", "result"}`;
`result := PyVal.none` serialises as JSON `null`. -/
structure Response where
  status : String
  stdout : String
  stderr : String
  result : PyVal
  deriving DecidableEq, Repr

/-- Model of `traceback.format_exc()`: some non-empty text containing the
exception message. -/
def formatTraceback (msg : String) : String :=
  "Traceback (most recent call last):\n" ++ msg ++ "\n"

/-- Embeds `SendPythonServer._execute`: fresh `local_ns` per call, `exec` under
captured stdout/stderr, result taken from `local_ns.get("result")`.
The globals dict passed to `exec` is the server module's — shared across
calls, but never written by plain assignment. -/
def execute (g : Namespace) (code : Source) : Response :=
  match runSource g ⟨[], ""⟩ code with
  | .ok st =>
      { status := "ok", stdout := st.stdout, stderr := ""
        result := (nsGet st.locals "result").getD PyVal.none }
  | .error (msg, st) =>
      { status := "error", stdout := st.stdout
        stderr := formatTraceback msg, result := PyVal.none }

/-! ## `SendPythonServer._handle_connection` -/

/-- A decoded JSON value as `json.loads` can produce it for a request. -/
inductive JVal where
  | null
  | int (n : Int)
  | str (code : Source)
  | obj (kvs : List (String × JVal))

/-- Dict lookup on a decoded JSON object (`request.get("code")`). -/
def jGet (kvs : List (String × JVal)) (k : String) : Option JVal :=
  match kvs with
  | [] => Option.none
  | (k', v) :: rest => if k' = k then some v else jGet rest k

/-- What `conn.recv` handed to the handler: nothing, bytes that
`json.loads` rejects, or bytes that decode to a JSON value. -/
inductive Payload where
  | empty
  | malformed
  | decoded (j : JVal)

/-- Extracting the code string from the request as the handler does:
`request.get("code")` then the `isinstance(code, str)` check. A
non-object JSON value has no `.get` and raises `AttributeError`. -/
def requestCode : JVal → Except String Source
  | .obj kvs =>
      match jGet kvs "code" with
      | some (JVal.str c) => .ok c
      | _ => .error "ValueError: Invalid request: 'code' must be string"
  | _ => .error "AttributeError: object has no attribute 'get'"

/-- What one call of `_handle_connection` did: the responses written to
the socket, and whether an exception escaped the handler (into `_run`). -/
structure HandlerOutcome where
  sent : List Response
  crashed : Bool
  deriving DecidableEq, Repr

/-- The error dict built in the handler's `except` branch. -/
def errorResponse (msg : String) : Response :=
  { status := "error", stdout := "", stderr := formatTraceback msg
    result := PyVal.none }

/-- The handler's `except Exception` branch: build the error dict and
`sendall` it; if that send itself raises, the exception escapes. -/
def exceptBranch (msg : String) (errSendOk : Bool) : HandlerOutcome :=
  if errSendOk then ⟨[errorResponse msg], false⟩ else ⟨[], true⟩

/-- Embeds `SendPythonServer._handle_connection`. `sendOk` models whether
`conn.sendall` of the main response succeeds, `errSendOk` the same for
the error response in the `except` branch. -/
def handleConnection (g : Namespace) (p : Payload)
    (sendOk errSendOk : Bool) : HandlerOutcome :=
  match p with
  | .empty => ⟨[], false⟩
  | .malformed =>
      exceptBranch "json.decoder.JSONDecodeError: Expecting value" errSendOk
  | .decoded j =>
      match requestCode j with
      | .error msg => exceptBranch msg errSendOk
      | .ok code =>
          let resp := execute g code
          if sendOk then ⟨[resp], false⟩
          else exceptBranch "OSError: send failed" errSendOk

/-! ## `SendPythonServer._run` — the accept loop -/

/-- One incoming connection as the loop sees it: its payload and the
transport behaviour of the two possible sends. -/
structure Conn where
  payload : Payload
  sendOk : Bool
  errSendOk : Bool

/-- The accept loop: handle connections in order; an exception escaping
`_handle_connection` propagates out of the `while` into the `try` that
wraps the WHOLE loop, which logs "server crashed" and returns — the
loop does not continue. Returns the outcomes of the connections that
were actually handled. -/
def runLoop (g : Namespace) : List Conn → List HandlerOutcome
  | [] => []
  | c :: rest =>
      let o := handleConnection g c.payload c.sendOk c.errSendOk
      if o.crashed then [o] else o :: runLoop g rest

/-! ## The lazy icon cache (`SvgZipListModel` + `SvgIconWorker`)

Rows are cache keys. The model state carries the `_icons` cache, the
`_loading` set and the multiset of render tasks currently outstanding
on the thread pool. -/

/-- State of `SvgZipListModel` relevant to the cache invariant. -/
structure IconModel where
  icons : List Nat
  loading : List Nat
  tasks : List Nat
  deriving DecidableEq, Repr

/-- The model as `__init__` leaves it: empty cache, empty loading set,
no outstanding tasks. -/
def IconModel.init : IconModel := ⟨[], [], []⟩

/-- Add to a set represented as a list (`set.add`). -/
def setAdd (s : List Nat) (x : Nat) : List Nat :=
  if x ∈ s then s else x :: s

/-- Removal, i.e. `set.discard`. -/
def setDiscard (s : List Nat) (x : Nat) : List Nat :=
  s.filter (fun y => y ≠ x)

/-- Remove one occurrence of a finished task. -/
def removeOneTask (ts : List Nat) (x : Nat) : List Nat :=
  match ts with
  | [] => []
  | t :: rest => if t = x then rest else t :: removeOneTask rest x

/-- Embeds `SvgZipListModel.request_icon`, with `_try_houdini_icon` folded in:
`houdiniOk` says whether `hou.qt.Icon` succeeded (it is `false` outside
Houdini). Already-cached or already-loading rows return immediately;
otherwise the row joins `_loading`, then either the Houdini icon is
stored (and `_loading` cleared for the row) or a zip-render worker is
scheduled on the thread pool. -/
def requestIcon (m : IconModel) (row : Nat) (houdiniOk : Bool) : IconModel :=
  if row ∈ m.icons ∨ row ∈ m.loading then m
  else
    let m' : IconModel := { m with loading := setAdd m.loading row }
    if houdiniOk then
      { m' with icons := setAdd m'.icons row
                loading := setDiscard m'.loading row }
    else
      { m' with tasks := row :: m'.tasks }

/-- Embeds `SvgZipListModel._on_icon_ready`: cache the rendered icon and drop
the row from the loading set. -/
def onIconReady (m : IconModel) (row : Nat) : IconModel :=
  { m with icons := setAdd m.icons row
           loading := setDiscard m.loading row
           tasks := removeOneTask m.tasks row }

/-- An event on the icon model. `rendered row readOk` is the completion
of an outstanding worker: `SvgIconWorker.run` first does
`zf.read(self.svg_path_in_zip)`; when that raises (`readOk = false`) the
exception escapes `run` before `signals.finished` is ever emitted, so
`_on_icon_ready` is not called. -/
inductive IconEvent where
  | request (row : Nat) (houdiniOk : Bool)
  | rendered (row : Nat) (readOk : Bool)
  deriving DecidableEq, Repr

/-- One step of the icon subsystem. A `rendered` event is only
meaningful for a row with an outstanding task (completions come from
dispatched workers); a failed read consumes the task but emits no
signal, so the model's `_loading` set is untouched. -/
def iconStep (m : IconModel) : IconEvent → IconModel
  | .request row houdiniOk => requestIcon m row houdiniOk
  | .rendered row readOk =>
      if row ∈ m.tasks then
        if readOk then onIconReady m row
        else { m with tasks := removeOneTask m.tasks row }
      else m

/-- A trace of events applied to the model. -/
def iconRun (m : IconModel) : List IconEvent → IconModel
  | [] => m
  | e :: es => iconRun (iconStep m e) es

/-! ## `group_svgs_by_folder` (svg_grouping.py) -/

/-- A Python dict with string keys and list-of-string values, kept in
insertion order. -/
abbrev PyDict := List (String × List String)

/-- Lookup in `d.get(k)` style. -/
def dictFind (d : PyDict) (k : String) : Option (List String) :=
  match d with
  | [] => Option.none
  | (k', v) :: rest => if k' = k then some v else dictFind rest k

/-- Assignment `d[k] = v` with Python-dict semantics (existing key keeps its
insertion position; new key appended). -/
def dictSet (d : PyDict) (k : String) (v : List String) : PyDict :=
  match d with
  | [] => [(k, v)]
  | (k', v') :: rest =>
      if k' = k then (k, v) :: rest else (k', v') :: dictSet rest k v

/-- Appending `groups[k].append(x)` in `defaultdict(list)` style. -/
def dictAppend (d : PyDict) (k : String) (x : String) : PyDict :=
  match d with
  | [] => [(k, [x])]
  | (k', v) :: rest =>
      if k' = k then (k', v ++ [x]) :: rest else (k', v) :: dictAppend rest k x

/-- The filter `name.lower().endswith(".svg")`. -/
def isSvgName (name : String) : Bool :=
  name.toLower.endsWith ".svg"

/-- The folder choice `parts = name.split("/"); folder = parts[0] if len(parts) > 1 else "root"`. -/
def folderOf (name : String) : String :=
  let parts := name.splitOn "/"
  if parts.length > 1 then parts.headD "" else "root"

/-- Embeds `group_svgs_by_folder`, on the archive's name list: keep the
case-insensitive `.svg` entries, grouped by top-level folder with
top-level files under `"root"`. -/
def groupSvgsByFolder (names : List String) : PyDict :=
  names.foldl
    (fun acc name =>
      if isSvgName name then dictAppend acc (folderOf name) name else acc)
    []

/-! ## `regroup_svgs_for_ui` (svg_category.py) -/

/-- The name of the catch-all category. -/
def OTHER_CATEGORY_NAME : String := "Other"

/-- Step 1 of `regroup_svgs_for_ui` on one category: collect the entries
of the category's folders that exist in `rawGroups`. -/
def categorySvgs (rawGroups : PyDict) (folders : List String) : List String :=
  folders.foldl
    (fun l folder =>
      match dictFind rawGroups folder with
      | some v => l ++ v
      | Option.none => l)
    []

/-- The folders of one category that exist in `rawGroups` and are hence
added to `used_folders`. -/
def categoryUsed (rawGroups : PyDict) (folders : List String) : List String :=
  folders.filter (fun f => (dictFind rawGroups f).isSome)

/-- One iteration of the category loop of `regroup_svgs_for_ui`:
extend `used_folders` with the category's folders found in `rawGroups`,
and add the category to `ui_groups` unless its entry list is empty. -/
def step1Fun (rawGroups : PyDict) (acc : PyDict × List String)
    (kv : String × List String) : PyDict × List String :=
  let svgList := categorySvgs rawGroups kv.2
  let used := acc.2 ++ categoryUsed rawGroups kv.2
  if svgList.isEmpty then (acc.1, used)
  else (dictSet acc.1 kv.1 svgList, used)

/-- Step 1 of `regroup_svgs_for_ui` (the loop over the JSON categories):
builds `ui_groups` (empty categories skipped) and `used_folders`. -/
def regroupStep1 (rawGroups categoryMap : PyDict) : PyDict × List String :=
  categoryMap.foldl (step1Fun rawGroups) ([], [])

/-- Embeds `regroup_svgs_for_ui`, taking the already-grouped folders and the
loaded category map: JSON categories first (empty ones skipped), then
every unused folder's entries into `"Other"` — placed by Python's
dict-update rule, i.e. appended unless a category of that name already
exists, in which case that key keeps its position and its value is
overwritten. -/
def regroupSvgsForUi (rawGroups categoryMap : PyDict) : PyDict :=
  let step1 := regroupStep1 rawGroups categoryMap
  let otherSvgs := rawGroups.foldl
    (fun l kv => if kv.1 ∈ step1.2 then l else l ++ kv.2) []
  if otherSvgs.isEmpty then step1.1
  else dictSet step1.1 OTHER_CATEGORY_NAME otherSvgs

/-! ## `WheelTabBar.wheelEvent` (wheel_tab_bar.py) -/

/-- The new current index after a wheel event on a tab bar with `count`
tabs, current index `current` and vertical angle delta `delta`. Mirrors
`wheelEvent`: empty bar and zero delta leave the index alone; otherwise
step down on positive delta, up on negative, clamped into
`[0, count - 1]`. -/
def wheelEventIndex (count current delta : Int) : Int :=
  if count = 0 then current
  else if delta = 0 then current
  else
    let next := if delta > 0 then current - 1 else current + 1
    max 0 (min (count - 1) next)

/-- The invariant of the icon cache (claim C5): at most one outstanding
render task per key, and every outstanding task's key is in the loading
set and not yet cached. -/
def IconInv (m : IconModel) : Prop :=
  (∀ k, m.tasks.count k ≤ 1) ∧
  (∀ k, k ∈ m.tasks → k ∈ m.loading ∧ k ∉ m.icons)

/-- Predicate: `name` is filed under group `g` of dict `d`. -/
def dictHas (d : PyDict) (g name : String) : Prop :=
  ∃ l, dictFind d g = some l ∧ name ∈ l

/-! ## Helper lemmas -/

theorem formatTraceback_ne_empty (msg : String) : formatTraceback msg ≠ "" := by
  intro h
  have hlen := congrArg String.length h
  rw [formatTraceback] at hlen
  rw [String.length_append, String.length_append] at hlen
  have h1 : ("Traceback (most recent call last):\n" : String).length = 35 := rfl
  have h2 : ("" : String).length = 0 := rfl
  omega

/-- The status of any `_execute` response is `"ok"` or `"error"`. -/
theorem execute_status (g : Namespace) (code : Source) :
    (execute g code).status = "ok" ∨ (execute g code).status = "error" := by
  rw [execute]
  cases runSource g ⟨[], ""⟩ code with
  | ok st => left; rfl
  | error e => right; rfl

/-- A handler given a working error-send path never lets an exception
escape. -/
theorem handleConnection_not_crashed (g : Namespace) (p : Payload) (s : Bool) :
    (handleConnection g p s true).crashed = false := by
  cases p with
  | empty => rfl
  | malformed => rfl
  | decoded j =>
      rw [handleConnection]
      cases requestCode j with
      | error msg => rfl
      | ok code => cases s <;> rfl

/-! ## The claims -/

/-- C1: whenever the received payload decodes as UTF-8 JSON to an object
whose `code` field is a string and the transport delivers the response,
`_handle_connection` sends exactly one JSON response, and its `status`
field is `"ok"` or `"error"`. -/
theorem C1_one_response_ok_or_error
    (g : Namespace) (kvs : List (String × JVal)) (code : Source) (b : Bool)
    (hcode : jGet kvs "code" = some (JVal.str code)) :
    (handleConnection g (Payload.decoded (JVal.obj kvs)) true b).sent.length = 1 ∧
    ∀ r ∈ (handleConnection g (Payload.decoded (JVal.obj kvs)) true b).sent,
      r.status = "ok" ∨ r.status = "error" := by
  have hreq : requestCode (JVal.obj kvs) = Except.ok code := by
    rw [requestCode, hcode]
  rw [handleConnection, hreq]
  refine ⟨rfl, ?_⟩
  intro r hr
  have hr' : r = execute g code := by simpa using hr
  subst hr'
  exact execute_status g code

/-- Witness for C1 at a concrete request `{"code": ""}`. -/
theorem C1_witness :
    (handleConnection [] (Payload.decoded (JVal.obj [("code", JVal.str [])]))
        true true).sent.length = 1 ∧
    ∀ r ∈ (handleConnection [] (Payload.decoded (JVal.obj [("code", JVal.str [])]))
        true true).sent, r.status = "ok" ∨ r.status = "error" :=
  C1_one_response_ok_or_error [] [("code", JVal.str [])] [] true rfl

/-- C2 counterexample: two successive requests against the same server
globals; the first binds `x = 42` by plain assignment, the second reads
`x` into `result`. The second request answers with a `NameError`, not
with the binding — plain assignments land in the per-request fresh
`local_ns`, never in the shared globals, so they are NOT visible to the
next request. -/
theorem C2_counterexample :
    runLoop []
      [⟨Payload.decoded (JVal.obj
          [("code", JVal.str [Stmt.assign "x" (Expr.lit (PyVal.int 42))])]),
        true, true⟩,
       ⟨Payload.decoded (JVal.obj
          [("code", JVal.str [Stmt.assign "result" (Expr.var "x")])]),
        true, true⟩] =
      [⟨[{ status := "ok", stdout := "", stderr := "", result := PyVal.none }],
        false⟩,
       ⟨[{ status := "error", stdout := ""
           stderr := formatTraceback "NameError: name 'x' is not defined"
           result := PyVal.none }],
        false⟩] := rfl

/-- C2 amended: executed code does NOT share plain-assignment bindings
across requests. `_execute` creates a fresh empty `local_ns` per call
and `exec(code, globals(), local_ns)` binds plain assignments only
there, so the server-module globals passed to every request are the same
unchanged namespace; a name absent from those globals that the first
request binds by plain assignment is still unbound for the second
request, whose lookup raises `NameError`. -/
theorem C2_amended_fresh_locals
    (g : Namespace) (x : String) (v : PyVal)
    (hx : nsGet g x = Option.none) :
    (execute g [Stmt.assign x (Expr.lit v)]).status = "ok" ∧
    (execute g [Stmt.assign "result" (Expr.var x)]).status = "error" ∧
    (execute g [Stmt.assign "result" (Expr.var x)]).result = PyVal.none ∧
    (execute g [Stmt.assign "result" (Expr.var x)]).stderr =
      formatTraceback ("NameError: name '" ++ x ++ "' is not defined") := by
  have hlookup : lookupName g [] x = Option.none := by
    rw [lookupName]; simp [nsGet, hx]
  have heval : evalExpr g [] (Expr.var x) =
      Except.error ("NameError: name '" ++ x ++ "' is not defined") := by
    rw [evalExpr, hlookup]
  constructor
  · rfl
  · rw [execute]
    simp [runSource, runStmt, heval]

/-- Witness for C2's amended statement at `g = []`, `x = "x"`,
`v = 42`. -/
theorem C2_amended_witness :
    (execute [] [Stmt.assign "x" (Expr.lit (PyVal.int 42))]).status = "ok" ∧
    (execute [] [Stmt.assign "result" (Expr.var "x")]).status = "error" ∧
    (execute [] [Stmt.assign "result" (Expr.var "x")]).result = PyVal.none ∧
    (execute [] [Stmt.assign "result" (Expr.var "x")]).stderr =
      formatTraceback ("NameError: name '" ++ "x" ++ "' is not defined") :=
  C2_amended_fresh_locals [] "x" (PyVal.int 42) rfl

/-- C3: every failing request is answered with exactly one response of
shape `{"status": "error", "stdout": <captured so far>, "stderr":
<non-empty formatted traceback>, "result": null}` and the exception is
not propagated to the handler's caller, provided the transport delivers
the response. Three failure classes: (a) malformed JSON, (b) a request
whose `code` extraction fails (missing field, non-string field, or a
non-object payload), (c) code that raises during execution — there the
captured-so-far stdout `st.stdout` is returned. Connection close is
structural: the `with conn:` block in `_run` closes the socket on every
path. -/
theorem C3_error_responses
    (g : Namespace) (j j' : JVal) (code : Source)
    (emsg emsg2 : String) (st : ExecState) (b b' : Bool)
    (hbad : requestCode j = Except.error emsg)
    (hok : requestCode j' = Except.ok code)
    (hraise : runSource g ⟨[], ""⟩ code = Except.error (emsg2, st)) :
    (handleConnection g Payload.malformed b true =
      ⟨[{ status := "error", stdout := ""
          stderr := formatTraceback "json.decoder.JSONDecodeError: Expecting value"
          result := PyVal.none }], false⟩) ∧
    (handleConnection g (Payload.decoded j) b true =
      ⟨[{ status := "error", stdout := ""
          stderr := formatTraceback emsg, result := PyVal.none }], false⟩) ∧
    (handleConnection g (Payload.decoded j') true b' =
      ⟨[{ status := "error", stdout := st.stdout
          stderr := formatTraceback emsg2, result := PyVal.none }], false⟩) ∧
    formatTraceback emsg ≠ "" ∧ formatTraceback emsg2 ≠ "" := by
  refine ⟨rfl, ?_, ?_, formatTraceback_ne_empty emsg, formatTraceback_ne_empty emsg2⟩
  · rw [handleConnection, hbad]
    rfl
  · rw [handleConnection, hok]
    have hexec : execute g code =
        { status := "error", stdout := st.stdout
          stderr := formatTraceback emsg2, result := PyVal.none } := by
      rw [execute, hraise]
    simp [hexec]

/-- Witness for C3: a non-string `code` field and code that raises. -/
theorem C3_witness :
    (handleConnection [] Payload.malformed true true =
      ⟨[{ status := "error", stdout := ""
          stderr := formatTraceback "json.decoder.JSONDecodeError: Expecting value"
          result := PyVal.none }], false⟩) ∧
    (handleConnection [] (Payload.decoded (JVal.obj [("code", JVal.int 7)])) true true =
      ⟨[{ status := "error", stdout := ""
          stderr := formatTraceback "ValueError: Invalid request: 'code' must be string"
          result := PyVal.none }], false⟩) ∧
    (handleConnection []
        (Payload.decoded (JVal.obj
          [("code", JVal.str [Stmt.printExpr (Expr.lit (PyVal.str "hi")),
                              Stmt.raiseExc "boom"])])) true true =
      ⟨[{ status := "error"
          stdout := (ExecState.mk [] "hi\n").stdout
          stderr := formatTraceback "Exception: boom", result := PyVal.none }], false⟩) ∧
    formatTraceback "ValueError: Invalid request: 'code' must be string" ≠ "" ∧
    formatTraceback "Exception: boom" ≠ "" :=
  C3_error_responses [] (JVal.obj [("code", JVal.int 7)])
    (JVal.obj [("code", JVal.str [Stmt.printExpr (Expr.lit (PyVal.str "hi")),
                                  Stmt.raiseExc "boom"])])
    [Stmt.printExpr (Expr.lit (PyVal.str "hi")), Stmt.raiseExc "boom"]
    "ValueError: Invalid request: 'code' must be string" "Exception: boom"
    ⟨[], "hi\n"⟩ true true rfl rfl rfl

/-- C4 counterexample: a transport error while sending the error
response (first connection: main send fails, error send fails too)
escapes `_handle_connection`; the exception propagates out of the
`while` loop into the `try` wrapping the WHOLE loop, which logs "server
crashed" and returns. The second, perfectly healthy connection is never
served: the accept loop does NOT survive this single connection's
failure. -/
theorem C4_counterexample :
    runLoop []
      [⟨Payload.decoded (JVal.obj [("code", JVal.str [])]), false, false⟩,
       ⟨Payload.decoded (JVal.obj [("code", JVal.str [])]), true, true⟩] =
      [⟨[], true⟩] ∧
    (runLoop []
      [⟨Payload.decoded (JVal.obj [("code", JVal.str [])]), false, false⟩,
       ⟨Payload.decoded (JVal.obj [("code", JVal.str [])]), true, true⟩]).length ≠ 2 :=
  ⟨rfl, by decide⟩

/-- C4 amended: the accept loop survives exactly the connection failures
that are handled inside `_handle_connection` — whenever the error
response can be written (its `sendall` does not raise), the handler
catches the exception, so for every sequence of connections whose
error-send succeeds, all connections are served. (A failure of the
error-response send itself escapes the handler and terminates the
loop, as the counterexample shows.) -/
theorem C4_amended_loop_survives
    (g : Namespace) (conns : List Conn)
    (h : ∀ c ∈ conns, c.errSendOk = true) :
    (runLoop g conns).length = conns.length := by
  induction conns with
  | nil => rfl
  | cons c rest ih =>
      have hc : c.errSendOk = true := h c (List.mem_cons_self c rest)
      have hrest : ∀ c' ∈ rest, c'.errSendOk = true :=
        fun c' hc' => h c' (List.mem_cons_of_mem c hc')
      rw [runLoop]
      rw [show handleConnection g c.payload c.sendOk c.errSendOk =
            handleConnection g c.payload c.sendOk true by rw [hc]]
      rw [handleConnection_not_crashed g c.payload c.sendOk]
      simp [ih hrest]

/-- Witness for C4's amended statement: two connections, the first one
failing inside the handler (raising code, then main-send failure) but
with a working error-send; both connections are served. -/
theorem C4_amended_witness :
    (runLoop []
      [⟨Payload.decoded (JVal.obj [("code", JVal.str [Stmt.raiseExc "boom"])]),
        false, true⟩,
       ⟨Payload.decoded (JVal.obj [("code", JVal.str [])]), true, true⟩]).length =
    ([⟨Payload.decoded (JVal.obj [("code", JVal.str [Stmt.raiseExc "boom"])]),
        false, true⟩,
      (⟨Payload.decoded (JVal.obj [("code", JVal.str [])]), true, true⟩ : Conn)] :
      List Conn).length :=
  C4_amended_loop_survives [] _ (by intro c hc; fin_cases hc <;> rfl)

/-- C7: a request whose code runs to completion gets `status = "ok"` and
a `result` field equal to `local_ns.get("result")` — the value of the
local binding `result` after execution, or `null` when no such binding
exists; in particular `result = 42` yields `result == 42`. -/
theorem C7_result_binding
    (g : Namespace) (code : Source) (st : ExecState)
    (hok : runSource g ⟨[], ""⟩ code = Except.ok st) :
    (execute g [Stmt.assign "result" (Expr.lit (PyVal.int 42))] =
      { status := "ok", stdout := "", stderr := "", result := PyVal.int 42 }) ∧
    (execute g code).status = "ok" ∧
    (execute g code).result = (nsGet st.locals "result").getD PyVal.none := by
  refine ⟨rfl, ?_, ?_⟩ <;> rw [execute, hok]

/-- Witness for C7: code `y = 1` runs to completion and, having no
`result` binding, yields a null result. -/
theorem C7_witness :
    (execute [] [Stmt.assign "result" (Expr.lit (PyVal.int 42))] =
      { status := "ok", stdout := "", stderr := "", result := PyVal.int 42 }) ∧
    (execute [] [Stmt.assign "y" (Expr.lit (PyVal.int 1))]).status = "ok" ∧
    (execute [] [Stmt.assign "y" (Expr.lit (PyVal.int 1))]).result =
      (nsGet (ExecState.mk [("y", PyVal.int 1)] "").locals "result").getD PyVal.none :=
  C7_result_binding [] [Stmt.assign "y" (Expr.lit (PyVal.int 1))]
    ⟨[("y", PyVal.int 1)], ""⟩ rfl

/-! ## Icon-cache lemmas -/

theorem mem_setAdd {s : List Nat} {x k : Nat} :
    k ∈ setAdd s x ↔ k = x ∨ k ∈ s := by
  rw [setAdd]
  split
  · constructor
    · exact Or.inr
    · rintro (rfl | h) <;> assumption
  · simp [List.mem_cons]

theorem mem_setDiscard {s : List Nat} {x k : Nat} :
    k ∈ setDiscard s x ↔ k ∈ s ∧ k ≠ x := by
  simp [setDiscard]

theorem mem_removeOneTask {ts : List Nat} {x k : Nat}
    (h : k ∈ removeOneTask ts x) : k ∈ ts := by
  induction ts with
  | nil => simp [removeOneTask] at h
  | cons t rest ih =>
      rw [removeOneTask] at h
      split at h
      · exact List.mem_cons_of_mem t h
      · rcases List.mem_cons.mp h with rfl | h'
        · exact List.mem_cons_self k rest
        · exact List.mem_cons_of_mem t (ih h')

theorem count_removeOneTask (ts : List Nat) (x k : Nat) :
    (removeOneTask ts x).count k ≤ ts.count k := by
  induction ts with
  | nil => simp [removeOneTask]
  | cons t rest ih =>
      rw [removeOneTask]
      split
      · rw [List.count_cons]
        omega
      · rw [List.count_cons, List.count_cons]
        omega

theorem not_mem_removeOneTask_of_count_le_one {ts : List Nat} {x : Nat}
    (h : ts.count x ≤ 1) : x ∉ removeOneTask ts x := by
  induction ts with
  | nil => simp [removeOneTask]
  | cons t rest ih =>
      rw [removeOneTask]
      rw [List.count_cons] at h
      split
      · rename_i ht
        subst ht
        simp at h
        intro hmem
        have := List.count_pos_iff.mpr hmem
        omega
      · rename_i ht
        intro hmem
        rcases List.mem_cons.mp hmem with heq | h'
        · exact ht heq.symm
        · exact ih (by omega) h'

theorem iconInv_init : IconInv IconModel.init := by
  constructor <;> intro k <;> simp [IconModel.init]

/-- The cache only grows: no event removes an icon. -/
theorem icons_subset_iconStep (m : IconModel) (e : IconEvent) :
    ∀ k, k ∈ m.icons → k ∈ (iconStep m e).icons := by
  intro k hk
  cases e with
  | request row houdiniOk =>
      rw [iconStep, requestIcon]
      split
      · exact hk
      · split
        · exact mem_setAdd.mpr (Or.inr hk)
        · exact hk
  | rendered row readOk =>
      rw [iconStep]
      split
      · split
        · exact mem_setAdd.mpr (Or.inr hk)
        · exact hk
      · exact hk

/-- One step preserves the invariant. -/
theorem iconInv_step {m : IconModel} (e : IconEvent) (hm : IconInv m) :
    IconInv (iconStep m e) := by
  obtain ⟨hcount, htask⟩ := hm
  cases e with
  | request row houdiniOk =>
      rw [iconStep, requestIcon]
      split
      · exact ⟨hcount, htask⟩
      · rename_i hfresh
        push_neg at hfresh
        obtain ⟨hicons, hloading⟩ := hfresh
        split
        · -- Houdini lookup succeeded: icon cached, no task dispatched
          refine ⟨hcount, fun k hk => ?_⟩
          obtain ⟨hkload, hkicon⟩ := htask k hk
          have hkrow : k ≠ row := fun h => hloading (h ▸ hkload)
          exact ⟨mem_setDiscard.mpr ⟨mem_setAdd.mpr (Or.inr hkload), hkrow⟩,
                 fun h => (mem_setAdd.mp h).elim hkrow hkicon⟩
        · -- zip-render worker dispatched
          have hrow_tasks : row ∉ m.tasks := fun h => hloading (htask row h).1
          refine ⟨fun k => ?_, fun k hk => ?_⟩
          · show (row :: m.tasks).count k ≤ 1
            rw [List.count_cons]
            by_cases hkr : k = row
            · subst hkr
              have h0 : m.tasks.count k = 0 := List.count_eq_zero.mpr hrow_tasks
              simp [h0]
            · simp [show ¬(row = k) from fun h => hkr h.symm]
              exact hcount k
          · rcases List.mem_cons.mp hk with rfl | hk'
            · exact ⟨mem_setAdd.mpr (Or.inl rfl), hicons⟩
            · obtain ⟨h1, h2⟩ := htask k hk'
              exact ⟨mem_setAdd.mpr (Or.inr h1), h2⟩
  | rendered row readOk =>
      rw [iconStep]
      split
      · rename_i hrow
        split
        · -- successful render: `_on_icon_ready`
          rw [onIconReady]
          refine ⟨fun k => Nat.le_trans (count_removeOneTask _ _ _) (hcount k),
                  fun k hk => ?_⟩
          have hkrow : k ≠ row := by
            intro h
            subst h
            exact not_mem_removeOneTask_of_count_le_one (hcount k) hk
          obtain ⟨h1, h2⟩ := htask k (mem_removeOneTask hk)
          exact ⟨mem_setDiscard.mpr ⟨h1, hkrow⟩,
                 fun h => (mem_setAdd.mp h).elim hkrow h2⟩
        · -- failed render: task consumed, nothing else changes
          refine ⟨fun k => Nat.le_trans (count_removeOneTask _ _ _) (hcount k),
                  fun k hk => htask k (mem_removeOneTask hk)⟩
      · exact ⟨hcount, htask⟩

theorem iconInv_run {m : IconModel} (es : List IconEvent) (hm : IconInv m) :
    IconInv (iconRun m es) := by
  induction es generalizing m with
  | nil => exact hm
  | cons e es ih => exact ih (iconInv_step e hm)

theorem icons_subset_iconRun (m : IconModel) (es : List IconEvent) :
    ∀ k, k ∈ m.icons → k ∈ (iconRun m es).icons := by
  induction es generalizing m with
  | nil => exact fun k hk => hk
  | cons e es ih =>
      exact fun k hk => ih (iconStep m e) k (icons_subset_iconStep m e k hk)

/-- C5: the icon-cache invariant — at most one outstanding render task
per cache key — holds initially and is preserved by every operation
(`request_icon` with either Houdini-lookup result, and render
completion); a request for a key that is already cached or already in
the loading set changes nothing (in particular it schedules no new
task); and a key present in the cache stays cached and is never
rendered again along any later event sequence. -/
theorem C5_cache_invariant :
    IconInv IconModel.init ∧
    (∀ (m : IconModel) (es : List IconEvent), IconInv m → IconInv (iconRun m es)) ∧
    (∀ (m : IconModel) (row : Nat) (houdiniOk : Bool),
      row ∈ m.icons ∨ row ∈ m.loading →
      iconStep m (IconEvent.request row houdiniOk) = m) ∧
    (∀ (m : IconModel) (es : List IconEvent) (row : Nat), IconInv m →
      row ∈ m.icons →
      row ∈ (iconRun m es).icons ∧ row ∉ (iconRun m es).tasks) := by
  refine ⟨iconInv_init, fun m es hm => iconInv_run es hm, ?_, ?_⟩
  · intro m row houdiniOk h
    rw [iconStep, requestIcon, if_pos h]
  · intro m es row hm hrow
    have hicon : row ∈ (iconRun m es).icons := icons_subset_iconRun m es row hrow
    have hinv := iconInv_run es hm
    exact ⟨hicon, fun htask => (hinv.2 row htask).2 hicon⟩

/-- Witness for C5: the invariant after requesting row 0 twice (second
request a no-op) and completing the render. -/
theorem C5_witness :
    IconInv (iconRun IconModel.init
      [IconEvent.request 0 false, IconEvent.request 0 false,
       IconEvent.rendered 0 true]) :=
  C5_cache_invariant.2.1 IconModel.init
    [IconEvent.request 0 false, IconEvent.request 0 false,
     IconEvent.rendered 0 true] C5_cache_invariant.1

/-- C6 counterexample: request row 0 (Houdini lookup fails, a zip-render
worker is dispatched, 0 joins `_loading`), then the worker's
`zf.read` raises — `SvgIconWorker.run` has no exception handling, so
`signals.finished` is never emitted and `_on_icon_ready` never runs.
The render has terminated (no outstanding task) yet row 0 is STILL in
the loading set, contradicting the claim that the key is removed
whether the render succeeds or fails. -/
theorem C6_counterexample :
    (iconRun IconModel.init
      [IconEvent.request 0 false, IconEvent.rendered 0 false]).loading = [0] ∧
    (iconRun IconModel.init
      [IconEvent.request 0 false, IconEvent.rendered 0 false]).tasks = [] :=
  ⟨rfl, rfl⟩

/-- C6 amended: for a fresh key (not cached, not loading), dispatching a
zip render via `request_icon` puts the key into the loading set with one
outstanding task; completing THAT render successfully (the worker emits
`finished` and `_on_icon_ready` discards the key) removes the key from
the loading set it had joined; completing it unsuccessfully — e.g. the
archive member cannot be read, so the worker raises before emitting its
signal — leaves the loading set of the post-dispatch state untouched,
so the key is still in it. Both completion events are applied to the
post-dispatch state, in which the key IS in the loading set. -/
theorem C6_amended_loading_set
    (m : IconModel) (row : Nat)
    (hicons : row ∉ m.icons) (hloading : row ∉ m.loading) :
    row ∈ (iconStep m (IconEvent.request row false)).loading ∧
    row ∈ (iconStep m (IconEvent.request row false)).tasks ∧
    row ∉ (iconStep (iconStep m (IconEvent.request row false))
            (IconEvent.rendered row true)).loading ∧
    (iconStep (iconStep m (IconEvent.request row false))
        (IconEvent.rendered row false)).loading =
      (iconStep m (IconEvent.request row false)).loading ∧
    row ∈ (iconStep (iconStep m (IconEvent.request row false))
            (IconEvent.rendered row false)).loading := by
  have hfresh : ¬(row ∈ m.icons ∨ row ∈ m.loading) := by
    rintro (h | h)
    · exact hicons h
    · exact hloading h
  have hm' : iconStep m (IconEvent.request row false) =
      { m with loading := setAdd m.loading row, tasks := row :: m.tasks } := by
    rw [iconStep, requestIcon, if_neg hfresh]
    rfl
  rw [hm']
  refine ⟨mem_setAdd.mpr (Or.inl rfl), List.mem_cons_self _ _, ?_, ?_, ?_⟩
  · rw [iconStep, if_pos (List.mem_cons_self _ _), if_pos rfl, onIconReady]
    intro h
    exact (mem_setDiscard.mp h).2 rfl
  · rw [iconStep, if_pos (List.mem_cons_self _ _), if_neg Bool.false_ne_true]
  · rw [iconStep, if_pos (List.mem_cons_self _ _), if_neg Bool.false_ne_true]
    exact mem_setAdd.mpr (Or.inl rfl)

/-- Witness for C6's amended statement: key 0 requested on the initial
(empty) model, so the completion events run on the post-dispatch state
`⟨[], [0], [0]⟩`, whose loading set contains 0. -/
theorem C6_amended_witness :
    (0 : Nat) ∈ (iconStep IconModel.init (IconEvent.request 0 false)).loading ∧
    (0 : Nat) ∈ (iconStep IconModel.init (IconEvent.request 0 false)).tasks ∧
    (0 : Nat) ∉ (iconStep (iconStep IconModel.init (IconEvent.request 0 false))
            (IconEvent.rendered 0 true)).loading ∧
    (iconStep (iconStep IconModel.init (IconEvent.request 0 false))
        (IconEvent.rendered 0 false)).loading =
      (iconStep IconModel.init (IconEvent.request 0 false)).loading ∧
    (0 : Nat) ∈ (iconStep (iconStep IconModel.init (IconEvent.request 0 false))
            (IconEvent.rendered 0 false)).loading :=
  C6_amended_loading_set IconModel.init 0
    (by simp [IconModel.init]) (by simp [IconModel.init])

/-! ## Grouping lemmas -/

theorem dictHas_nil (g name : String) : ¬ dictHas [] g name := by
  rintro ⟨l, hl, -⟩
  simp [dictFind] at hl

theorem dictHas_dictAppend (d : PyDict) (k x g name : String) :
    dictHas (dictAppend d k x) g name ↔
      dictHas d g name ∨ (g = k ∧ name = x) := by
  induction d with
  | nil =>
      rw [dictAppend]
      constructor
      · rintro ⟨l, hl, hn⟩
        rw [dictFind] at hl
        split at hl
        · rename_i hk
          right
          cases hl
          simp at hn
          exact ⟨hk.symm, hn⟩
        · simp [dictFind] at hl
      · rintro (h | ⟨rfl, rfl⟩)
        · exact absurd h (dictHas_nil g name)
        · exact ⟨[name], by rw [dictFind]; simp, by simp⟩
  | cons kv rest ih =>
      obtain ⟨k', v⟩ := kv
      rw [dictAppend]
      split
      · rename_i hk'
        subst hk'
        by_cases hg : k' = g
        · subst hg
          constructor
          · rintro ⟨l, hl, hn⟩
            rw [dictFind] at hl
            simp at hl
            subst hl
            rcases List.mem_append.mp hn with h | h
            · exact Or.inl ⟨v, by rw [dictFind]; simp, h⟩
            · simp at h
              exact Or.inr ⟨rfl, h⟩
          · rintro (⟨l, hl, hn⟩ | ⟨-, hx⟩)
            · rw [dictFind] at hl
              simp at hl
              subst hl
              exact ⟨v ++ [x], by rw [dictFind]; simp, List.mem_append.mpr (Or.inl hn)⟩
            · exact ⟨v ++ [x], by rw [dictFind]; simp, by rw [hx]; simp⟩
        · constructor
          · rintro ⟨l, hl, hn⟩
            rw [dictFind, if_neg hg] at hl
            exact Or.inl ⟨l, by rw [dictFind, if_neg hg]; exact hl, hn⟩
          · rintro (⟨l, hl, hn⟩ | ⟨rfl, -⟩)
            · rw [dictFind, if_neg hg] at hl
              exact ⟨l, by rw [dictFind, if_neg hg]; exact hl, hn⟩
            · exact absurd rfl hg
      · rename_i hk'
        by_cases hg : k' = g
        · subst hg
          constructor
          · rintro ⟨l, hl, hn⟩
            rw [dictFind] at hl
            simp at hl
            subst hl
            exact Or.inl ⟨v, by rw [dictFind]; simp, hn⟩
          · rintro (⟨l, hl, hn⟩ | ⟨rfl, -⟩)
            · rw [dictFind] at hl
              simp at hl
              subst hl
              exact ⟨v, by rw [dictFind]; simp, hn⟩
            · exact absurd rfl hk'
        · constructor
          · rintro ⟨l, hl, hn⟩
            rw [dictFind, if_neg hg] at hl
            exact (ih.mp ⟨l, hl, hn⟩).imp
              (fun ⟨l', hl', hn'⟩ => ⟨l', by rw [dictFind, if_neg hg]; exact hl', hn'⟩)
              id
          · intro h
            have h' : dictHas rest g name ∨ (g = k ∧ name = x) := by
              rcases h with ⟨l, hl, hn⟩ | hx
              · rw [dictFind, if_neg hg] at hl
                exact Or.inl ⟨l, hl, hn⟩
              · exact Or.inr hx
            obtain ⟨l, hl, hn⟩ := ih.mpr h'
            exact ⟨l, by rw [dictFind, if_neg hg]; exact hl, hn⟩

/-- The filtering-and-grouping fold, characterised one name at a time. -/
theorem dictHas_groupFold (names : List String) (acc : PyDict) (g name : String) :
    dictHas
      (names.foldl
        (fun acc n =>
          if isSvgName n then dictAppend acc (folderOf n) n else acc) acc)
      g name ↔
    dictHas acc g name ∨
      (name ∈ names ∧ isSvgName name = true ∧ g = folderOf name) := by
  induction names generalizing acc with
  | nil => simp
  | cons n rest ih =>
      rw [List.foldl_cons, ih]
      by_cases hsvg : isSvgName n
      · rw [if_pos hsvg, dictHas_dictAppend]
        constructor
        · rintro ((h | ⟨rfl, rfl⟩) | h)
          · exact Or.inl h
          · exact Or.inr ⟨List.mem_cons_self _ _, hsvg, rfl⟩
          · exact Or.inr ⟨List.mem_cons_of_mem n h.1, h.2⟩
        · rintro (h | ⟨hmem, hs, hf⟩)
          · exact Or.inl (Or.inl h)
          · rcases List.mem_cons.mp hmem with rfl | hmem'
            · exact Or.inl (Or.inr ⟨hf, rfl⟩)
            · exact Or.inr ⟨hmem', hs, hf⟩
      · rw [if_neg hsvg]
        constructor
        · rintro (h | h)
          · exact Or.inl h
          · exact Or.inr ⟨List.mem_cons_of_mem n h.1, h.2⟩
        · rintro (h | ⟨hmem, hs, hf⟩)
          · exact Or.inl h
          · rcases List.mem_cons.mp hmem with rfl | hmem'
            · exact absurd hs (by simpa using hsvg)
            · exact Or.inr ⟨hmem', hs, hf⟩

/-- C9: `group_svgs_by_folder` files `name` under group `g` exactly when
`name` is one of the archive's entries, its lower-cased name ends in
`".svg"`, and `g` is the first `'/'`-separated segment of its path when
there is more than one segment — or the sentinel `"root"` for a
single-segment (top-level) path, as `folderOf` spells out. -/
theorem C9_grouping_characterisation (names : List String) (g name : String) :
    dictHas (groupSvgsByFolder names) g name ↔
      (name ∈ names ∧ isSvgName name = true ∧ g = folderOf name) := by
  rw [groupSvgsByFolder, dictHas_groupFold]
  constructor
  · rintro (h | h)
    · exact absurd h (dictHas_nil g name)
    · exact h
  · exact Or.inr

/-! ## Category-regrouping lemmas -/

theorem mem_dictSet {d : PyDict} {k : String} {v : List String}
    {p : String × List String} (h : p ∈ dictSet d k v) :
    p ∈ d ∨ p = (k, v) := by
  induction d with
  | nil => simpa [dictSet] using h
  | cons kv rest ih =>
      obtain ⟨k', v'⟩ := kv
      rw [dictSet] at h
      split at h
      · rcases List.mem_cons.mp h with rfl | h'
        · exact Or.inr rfl
        · exact Or.inl (List.mem_cons_of_mem _ h')
      · rcases List.mem_cons.mp h with rfl | h'
        · exact Or.inl (List.mem_cons_self _ _)
        · exact (ih h').imp (List.mem_cons_of_mem _) id

theorem keys_dictSet {d : PyDict} {k k' : String} {v : List String}
    (h : k' ∈ (dictSet d k v).map Prod.fst) :
    k' = k ∨ k' ∈ d.map Prod.fst := by
  simp only [List.mem_map] at h ⊢
  obtain ⟨p, hp, hk'⟩ := h
  rcases mem_dictSet hp with h' | rfl
  · exact Or.inr ⟨p, h', hk'⟩
  · exact Or.inl hk'.symm

theorem dictSet_of_not_mem {d : PyDict} {k : String} (v : List String)
    (h : k ∉ d.map Prod.fst) : dictSet d k v = d ++ [(k, v)] := by
  induction d with
  | nil => rfl
  | cons kv rest ih =>
      obtain ⟨k', v'⟩ := kv
      simp only [List.map_cons, List.mem_cons] at h
      push_neg at h
      rw [dictSet, if_neg (fun he => h.1 he.symm), List.cons_append, ih h.2]

/-- Every key of step 1's `ui_groups` is a category of the JSON map. -/
theorem step1_fold_keys (raw : PyDict) (cmap : List (String × List String)) :
    ∀ (acc : PyDict × List String) (k : String),
      k ∈ (cmap.foldl (step1Fun raw) acc).1.map Prod.fst →
      k ∈ acc.1.map Prod.fst ∨ k ∈ cmap.map Prod.fst := by
  induction cmap with
  | nil => exact fun acc k h => Or.inl h
  | cons c rest ih =>
      intro acc k h
      rcases ih (step1Fun raw acc c) k h with h' | h'
      · rw [step1Fun] at h'
        split at h'
        · exact Or.inl h'
        · rcases keys_dictSet h' with rfl | h''
          · exact Or.inr (by simp)
          · exact Or.inl h''
      · exact Or.inr (List.mem_cons_of_mem _ h')

/-- Step 1 only ever inserts non-empty entry lists. -/
theorem step1_fold_values_ne_nil (raw : PyDict) (cmap : List (String × List String)) :
    ∀ (acc : PyDict × List String),
      (∀ p ∈ acc.1, p.2 ≠ ([] : List String)) →
      ∀ p ∈ (cmap.foldl (step1Fun raw) acc).1, p.2 ≠ ([] : List String) := by
  induction cmap with
  | nil => exact fun acc hacc => hacc
  | cons c rest ih =>
      intro acc hacc
      refine ih (step1Fun raw acc c) ?_
      intro p hp
      rw [step1Fun] at hp
      split at hp
      · exact hacc p hp
      · rename_i hne
        rcases mem_dictSet hp with h' | rfl
        · exact hacc p h'
        · simpa [List.isEmpty_iff] using hne

/-- C8 counterexample: a category map that itself defines a category
named `"Other"`. `ui_groups["Other"]` already exists when the catch-all
is written, so Python's dict-update rule keeps it at its ORIGINAL
(first) position and overwrites its value: the catch-all ends up first,
not last, and the map's own "Other" entries (`"a"`) are lost. This
refutes the claim's general clause that the non-empty catch-all
`"Other"` is always placed last. -/
theorem C8_counterexample :
    regroupSvgsForUi [("SOP", ["a"]), ("DOP", ["b"]), ("X", ["c"])]
        [("Other", ["SOP"]), ("Geo", ["DOP"])] =
      [("Other", ["c"]), ("Geo", ["b"])] ∧
    (regroupSvgsForUi [("SOP", ["a"]), ("DOP", ["b"]), ("X", ["c"])]
        [("Other", ["SOP"]), ("Geo", ["DOP"])]).getLast?.map Prod.fst =
      some "Geo" ∧
    dictFind
      (regroupSvgsForUi [("SOP", ["a"]), ("DOP", ["b"]), ("X", ["c"])]
        [("Other", ["SOP"]), ("Geo", ["DOP"])]) "Other" = some ["c"] ∧
    ("Geo" : String) ≠ "Other" :=
  ⟨rfl, rfl, rfl, by decide⟩

/-- C8 amended: for non-empty SOP and DOP folders and the map
`{"Geometry": ["SOP"]}` the result is exactly
`[("Geometry", SOP entries), ("Other", DOP entries)]` in that insertion
order (whichever way the two folders were ordered); in general every
category in the result is non-empty, and — provided the category map
does not itself define a category named `"Other"` — the non-empty
catch-all `"Other"` is placed last. (When the map does define
`"Other"`, the catch-all overwrites that category's value at its
original position, as the counterexample shows.) -/
theorem C8_amended_regroup
    (sop dop : List String) (raw cmap : PyDict)
    (hs : sop ≠ []) (hd : dop ≠ [])
    (hother : OTHER_CATEGORY_NAME ∉ cmap.map Prod.fst) :
    regroupSvgsForUi [("SOP", sop), ("DOP", dop)] [("Geometry", ["SOP"])] =
      [("Geometry", sop), ("Other", dop)] ∧
    regroupSvgsForUi [("DOP", dop), ("SOP", sop)] [("Geometry", ["SOP"])] =
      [("Geometry", sop), ("Other", dop)] ∧
    (∀ p ∈ regroupSvgsForUi raw cmap, p.2 ≠ ([] : List String)) ∧
    (OTHER_CATEGORY_NAME ∈ (regroupSvgsForUi raw cmap).map Prod.fst →
      (regroupSvgsForUi raw cmap).getLast?.map Prod.fst =
        some OTHER_CATEGORY_NAME) := by
  have hs' : sop.isEmpty = false := by simp [List.isEmpty_iff, hs]
  have hd' : dop.isEmpty = false := by simp [List.isEmpty_iff, hd]
  have hkeys : OTHER_CATEGORY_NAME ∉ (regroupStep1 raw cmap).1.map Prod.fst := by
    intro h
    rcases step1_fold_keys raw cmap ([], []) OTHER_CATEGORY_NAME h with h' | h'
    · simp at h'
    · exact hother h'
  refine ⟨?_, ?_, ?_, ?_⟩
  · simp [regroupSvgsForUi, regroupStep1, step1Fun, categorySvgs, categoryUsed,
      dictFind, dictSet, OTHER_CATEGORY_NAME, hs', hd']
  · simp [regroupSvgsForUi, regroupStep1, step1Fun, categorySvgs, categoryUsed,
      dictFind, dictSet, OTHER_CATEGORY_NAME, hs', hd']
  · intro p hp
    rw [regroupSvgsForUi] at hp
    split at hp
    · exact step1_fold_values_ne_nil raw cmap ([], []) (by simp) p hp
    · rename_i hne
      rcases mem_dictSet hp with h' | rfl
      · exact step1_fold_values_ne_nil raw cmap ([], []) (by simp) p h'
      · simpa [List.isEmpty_iff] using hne
  · intro hmem
    rw [regroupSvgsForUi] at hmem ⊢
    split at hmem
    · exact absurd hmem hkeys
    · rename_i hne
      rw [if_neg hne, dictSet_of_not_mem _ hkeys, List.getLast?_append_cons]
      rfl

/-- Witness for C8's amended statement at concrete folders and a map
without an "Other" category. -/
theorem C8_amended_witness :
    regroupSvgsForUi [("SOP", ["s1"]), ("DOP", ["d1"])] [("Geometry", ["SOP"])] =
      [("Geometry", ["s1"]), ("Other", ["d1"])] ∧
    regroupSvgsForUi [("DOP", ["d1"]), ("SOP", ["s1"])] [("Geometry", ["SOP"])] =
      [("Geometry", ["s1"]), ("Other", ["d1"])] ∧
    (∀ p ∈ regroupSvgsForUi [("SOP", ["s1"]), ("DOP", ["d1"])]
        [("Geometry", ["SOP"])], p.2 ≠ ([] : List String)) ∧
    (OTHER_CATEGORY_NAME ∈
        (regroupSvgsForUi [("SOP", ["s1"]), ("DOP", ["d1"])]
          [("Geometry", ["SOP"])]).map Prod.fst →
      (regroupSvgsForUi [("SOP", ["s1"]), ("DOP", ["d1"])]
          [("Geometry", ["SOP"])]).getLast?.map Prod.fst =
        some OTHER_CATEGORY_NAME) :=
  C8_amended_regroup ["s1"] ["d1"]
    [("SOP", ["s1"]), ("DOP", ["d1"])] [("Geometry", ["SOP"])]
    (by decide) (by decide) (by decide)

/-- C10: on a 3-tab strip at index 1 a scroll-down event (negative
vertical delta) moves the current index to 2 and a scroll-up event
(positive delta) moves it to 0; and from any valid widget state
(`count ≥ 1`, current index within `[0, count-1]` as Qt maintains it)
the index after any wheel event stays within `[0, count-1]`. -/
theorem C10_wheel_navigation (count current delta : Int)
    (hc : 1 ≤ count) (h0 : 0 ≤ current) (h1 : current ≤ count - 1) :
    wheelEventIndex 3 1 (-120) = 2 ∧
    wheelEventIndex 3 1 120 = 0 ∧
    0 ≤ wheelEventIndex count current delta ∧
    wheelEventIndex count current delta ≤ count - 1 := by
  refine ⟨by decide, by decide, ?_⟩
  rw [wheelEventIndex]
  split
  · exact ⟨h0, h1⟩
  · split
    · exact ⟨h0, h1⟩
    · exact ⟨le_max_left 0 _, max_le (by omega) (min_le_left _ _)⟩

/-- Witness for C10 at a 3-tab strip, index 1, scroll-down. -/
theorem C10_witness :
    wheelEventIndex 3 1 (-120) = 2 ∧
    wheelEventIndex 3 1 120 = 0 ∧
    0 ≤ wheelEventIndex 3 1 (-120) ∧
    wheelEventIndex 3 1 (-120) ≤ 3 - 1 :=
  C10_wheel_navigation 3 1 (-120) (by decide) (by decide) (by decide)

end PixelPouch
